import Mathlib

/-!
Shallow embedding of the root-finding core of SolveSquare (src/main.c) over
the real numbers, together with theorems checking its specification.

The embedded functions are `solve_square` and `solve_linear` (lines 136-181
of src/main.c).  Doubles are modelled as real numbers, `fabs` as `|·|`,
`sqrt` as `Real.sqrt` (which sends negative arguments to 0), and the C
constant `DBL_EPSILON` as the exact real value 2 ^ (-52).  Note that the
source line 142 carries a stray extra closing parenthesis; the condition it
tests, `(d < 0) && (fabs(d) > DBL_EPSILON)`, is unambiguous and is what is
embedded here.

Two views of `solve_square` are given: a pure view returning a tagged
`RootResult`, and a C-faithful view `solve_square_c` that threads the two
output locations `*x1`, `*x2` explicitly as a state record, returning the
`int` status code as the C function does, so that frame and purity
properties of the out-parameters can be stated.
-/

namespace SolveSquare

/-- The C constant DBL_EPSILON for IEEE double precision, the exact real
value 2 ^ (-52). -/
noncomputable def DBL_EPSILON : ℝ := 1 / 2 ^ 52

/-- The C constant INFINITE_ROOTS from src/main.c line 37. -/
def INFINITE_ROOTS : Int := -1

/-- Tagged outcome of one solve invocation, as described by the data model
of the specification. -/
inductive RootResult where
  | NoRoots : RootResult
  | InfiniteRoots : RootResult
  | OneRoot (x : ℝ) : RootResult
  | TwoRoots (x1 x2 : ℝ) : RootResult

/-- Embedding of `solve_linear` (src/main.c lines 169-181), pure view:
the returned status code together with the value written through `x` is
rendered as a `RootResult`. -/
noncomputable def solve_linear (b c : ℝ) : RootResult :=
  if |b| < DBL_EPSILON then
    if |c| < DBL_EPSILON then RootResult.InfiniteRoots
    else RootResult.NoRoots
  else RootResult.OneRoot (-c / b)

/-- Embedding of `solve_square` (src/main.c lines 136-156), pure view.
The local `d = b*b - 4*a*c` is inlined; the reassignment `d = sqrt(d)` of
line 151 is inlined as `Real.sqrt (b*b - 4*a*c)`. -/
noncomputable def solve_square (a b c : ℝ) : RootResult :=
  if |a| < DBL_EPSILON then solve_linear b c
  else if b * b - 4 * a * c < 0 ∧ |b * b - 4 * a * c| > DBL_EPSILON then
    RootResult.NoRoots
  else if |b * b - 4 * a * c| < DBL_EPSILON then
    RootResult.OneRoot (-b / (2 * a))
  else
    RootResult.TwoRoots ((-b - Real.sqrt (b * b - 4 * a * c)) / (2 * a))
      ((-b + Real.sqrt (b * b - 4 * a * c)) / (2 * a))

/-- The pointees of the two out-parameters `x1` and `x2` of `solve_square`. -/
structure SState where
  x1 : ℝ
  x2 : ℝ

/-- Embedding of `solve_linear` (src/main.c lines 169-181), C-faithful view:
`x` is the current pointee of the out-parameter; the function returns the
`int` status code and the (possibly unchanged) pointee. -/
noncomputable def solve_linear_c (b c x : ℝ) : Int × ℝ :=
  if |b| < DBL_EPSILON then
    if |c| < DBL_EPSILON then (INFINITE_ROOTS, x)
    else (0, x)
  else (1, -c / b)

/-- Embedding of `solve_square` (src/main.c lines 136-156), C-faithful view:
the state holds the pointees of `x1` and `x2`; the function returns the
`int` status code and the updated state.  The linear fallback of line 139
passes the address of `x1` only, leaving `x2` untouched. -/
noncomputable def solve_square_c (a b c : ℝ) (s : SState) : Int × SState :=
  if |a| < DBL_EPSILON then
    ((solve_linear_c b c s.x1).1, ⟨(solve_linear_c b c s.x1).2, s.x2⟩)
  else if b * b - 4 * a * c < 0 ∧ |b * b - 4 * a * c| > DBL_EPSILON then
    (0, s)
  else if |b * b - 4 * a * c| < DBL_EPSILON then
    (1, ⟨-b / (2 * a), s.x2⟩)
  else
    (2, ⟨(-b - Real.sqrt (b * b - 4 * a * c)) / (2 * a),
         (-b + Real.sqrt (b * b - 4 * a * c)) / (2 * a)⟩)

/-- Instrumentation of the control flow of `solve_square`: the argument
passed to the C library `sqrt` at line 151 along the execution on inputs
`(a, b, c)`, or `none` when the branch calling `sqrt` is not reached. -/
noncomputable def solve_square_sqrt_arg (a b c : ℝ) : Option ℝ :=
  if |a| < DBL_EPSILON then none
  else if b * b - 4 * a * c < 0 ∧ |b * b - 4 * a * c| > DBL_EPSILON then none
  else if |b * b - 4 * a * c| < DBL_EPSILON then none
  else some (b * b - 4 * a * c)

/-- Instrumentation of the control flow of `solve_square`: the list of
divisors of the divisions performed along the execution on inputs
`(a, b, c)` (the divisor `b` at line 179, or the divisor `2*a` at lines
147, 152 and 153). -/
noncomputable def solve_square_divisors (a b c : ℝ) : List ℝ :=
  if |a| < DBL_EPSILON then
    (if |b| < DBL_EPSILON then [] else [b])
  else if b * b - 4 * a * c < 0 ∧ |b * b - 4 * a * c| > DBL_EPSILON then []
  else [2 * a]

/-- The messages `main` (src/main.c lines 63-72) can print about the solver
outcome. -/
inductive MainMessage where
  | infiniteMsg : MainMessage
  | noRootsMsg : MainMessage
  | oneRootMsg : MainMessage
  | twoRootsMsg : MainMessage
  | strangeMsg : MainMessage
deriving DecidableEq

/-- The if/else cascade of `main` (src/main.c lines 63-72) dispatching on
the status code returned by `solve_square`; `strangeMsg` is the final
fallback of line 72. -/
def main_dispatch (n : Int) : MainMessage :=
  if n = INFINITE_ROOTS then MainMessage.infiniteMsg
  else if n = 0 then MainMessage.noRootsMsg
  else if n = 1 then MainMessage.oneRootMsg
  else if n = 2 then MainMessage.twoRootsMsg
  else MainMessage.strangeMsg

/-! ### Helper lemmas -/

lemma eps_pos : (0 : ℝ) < DBL_EPSILON := by norm_num [DBL_EPSILON]

lemma sqrt_four : Real.sqrt 4 = 2 := by
  rw [show (4 : ℝ) = 2 ^ 2 by norm_num, Real.sqrt_sq (by norm_num)]

/-- `solve_linear` never produces a `TwoRoots` outcome. -/
lemma solve_linear_ne_twoRoots (b c r1 r2 : ℝ) :
    solve_linear b c ≠ RootResult.TwoRoots r1 r2 := by
  unfold solve_linear
  split_ifs <;> simp

/-- Inversion: what must hold when `solve_square` returns `TwoRoots`. -/
lemma twoRoots_inv {a b c r1 r2 : ℝ}
    (h : solve_square a b c = RootResult.TwoRoots r1 r2) :
    DBL_EPSILON ≤ |a| ∧
    ¬(b * b - 4 * a * c < 0 ∧ |b * b - 4 * a * c| > DBL_EPSILON) ∧
    DBL_EPSILON ≤ |b * b - 4 * a * c| ∧
    r1 = (-b - Real.sqrt (b * b - 4 * a * c)) / (2 * a) ∧
    r2 = (-b + Real.sqrt (b * b - 4 * a * c)) / (2 * a) := by
  unfold solve_square at h
  split_ifs at h with h1 h2 h3
  · exact absurd h (solve_linear_ne_twoRoots _ _ _ _)
  · simp only [RootResult.TwoRoots.injEq] at h
    exact ⟨not_lt.mp h1, h2, not_lt.mp h3, h.1.symm, h.2.symm⟩

/-- Inversion: what must hold when `solve_square` returns `OneRoot`. -/
lemma oneRoot_inv {a b c r : ℝ}
    (h : solve_square a b c = RootResult.OneRoot r) :
    (|a| < DBL_EPSILON ∧ DBL_EPSILON ≤ |b| ∧ r = -c / b) ∨
    (DBL_EPSILON ≤ |a| ∧ |b * b - 4 * a * c| < DBL_EPSILON ∧
      r = -b / (2 * a)) := by
  unfold solve_square at h
  split_ifs at h with h1 h2 h3
  · left
    unfold solve_linear at h
    split_ifs at h with h4 h5
    · simp only [RootResult.OneRoot.injEq] at h
      exact ⟨h1, not_lt.mp h4, h.symm⟩
  · simp only [RootResult.OneRoot.injEq] at h
    exact Or.inr ⟨not_lt.mp h1, h3, h.symm⟩

lemma ne_zero_of_eps_le_abs {x : ℝ} (h : DBL_EPSILON ≤ |x|) : x ≠ 0 :=
  abs_pos.mp (lt_of_lt_of_le eps_pos h)

lemma solve_square_linear_branch {a : ℝ} (b c : ℝ) (h : |a| < DBL_EPSILON) :
    solve_square a b c = solve_linear b c := by
  unfold solve_square
  rw [if_pos h]

lemma solve_square_noRoots_branch {a b c : ℝ} (h1 : ¬(|a| < DBL_EPSILON))
    (h2 : b * b - 4 * a * c < 0 ∧ |b * b - 4 * a * c| > DBL_EPSILON) :
    solve_square a b c = RootResult.NoRoots := by
  unfold solve_square
  rw [if_neg h1, if_pos h2]

lemma solve_square_oneRoot_branch {a b c : ℝ} (h1 : ¬(|a| < DBL_EPSILON))
    (h2 : ¬(b * b - 4 * a * c < 0 ∧ |b * b - 4 * a * c| > DBL_EPSILON))
    (h3 : |b * b - 4 * a * c| < DBL_EPSILON) :
    solve_square a b c = RootResult.OneRoot (-b / (2 * a)) := by
  unfold solve_square
  rw [if_neg h1, if_neg h2, if_pos h3]

lemma solve_square_twoRoots_branch {a b c : ℝ} (h1 : ¬(|a| < DBL_EPSILON))
    (h2 : ¬(b * b - 4 * a * c < 0 ∧ |b * b - 4 * a * c| > DBL_EPSILON))
    (h3 : ¬(|b * b - 4 * a * c| < DBL_EPSILON)) :
    solve_square a b c =
      RootResult.TwoRoots ((-b - Real.sqrt (b * b - 4 * a * c)) / (2 * a))
        ((-b + Real.sqrt (b * b - 4 * a * c)) / (2 * a)) := by
  unfold solve_square
  rw [if_neg h1, if_neg h2, if_neg h3]

/-- Worked example: the equation x^2 - 1 = 0. -/
lemma solve_ex_two : solve_square 1 0 (-1) = RootResult.TwoRoots (-1) 1 := by
  rw [solve_square_twoRoots_branch (by norm_num [DBL_EPSILON])
    (by norm_num) (by norm_num [DBL_EPSILON])]
  norm_num [sqrt_four]

/-- Worked example: the equation x^2 - 2x + 1 = 0. -/
lemma solve_ex_one : solve_square 1 (-2) 1 = RootResult.OneRoot 1 := by
  rw [solve_square_oneRoot_branch (by norm_num [DBL_EPSILON])
    (by norm_num [DBL_EPSILON]) (by norm_num [DBL_EPSILON])]
  norm_num

/-- Worked example: the equation x^2 + 1 = 0. -/
lemma solve_ex_none : solve_square 1 0 1 = RootResult.NoRoots :=
  solve_square_noRoots_branch (by norm_num [DBL_EPSILON])
    (by norm_num [DBL_EPSILON])

/-- Worked example: the linear equation 2x - 4 = 0. -/
lemma solve_ex_lin : solve_square 0 2 (-4) = RootResult.OneRoot 2 := by
  rw [solve_square_linear_branch 2 (-4) (by norm_num [DBL_EPSILON])]
  unfold solve_linear
  rw [if_neg (by norm_num [DBL_EPSILON])]
  norm_num

/-- Worked example: the constant equation 5 = 0. -/
lemma solve_ex_const : solve_square 0 0 5 = RootResult.NoRoots := by
  rw [solve_square_linear_branch 0 5 (by norm_num [DBL_EPSILON])]
  unfold solve_linear
  rw [if_pos (by norm_num [DBL_EPSILON]), if_neg (by norm_num [DBL_EPSILON])]

/-- Worked example: the identically zero equation 0 = 0. -/
lemma solve_ex_zero : solve_square 0 0 0 = RootResult.InfiniteRoots := by
  rw [solve_square_linear_branch 0 0 (by norm_num [DBL_EPSILON])]
  unfold solve_linear
  rw [if_pos (by norm_num [DBL_EPSILON]), if_pos (by norm_num [DBL_EPSILON])]

/-! ### Claims -/

/-- C1: for every triple with DBL_EPSILON ≤ |a|, `solve_square` computes the
discriminant d = b*b - 4*a*c and returns `NoRoots` when d < 0 and
|d| > DBL_EPSILON, `OneRoot (-b/(2*a))` when |d| < DBL_EPSILON (so a
negative d of magnitude within DBL_EPSILON is classified `OneRoot`, not
`NoRoots`), and `TwoRoots ((-b - sqrt d)/(2*a)) ((-b + sqrt d)/(2*a))`
otherwise. -/
theorem solve_square_quadratic_classification (a b c : ℝ)
    (ha : DBL_EPSILON ≤ |a|) :
    (b * b - 4 * a * c < 0 ∧ |b * b - 4 * a * c| > DBL_EPSILON →
      solve_square a b c = RootResult.NoRoots) ∧
    (|b * b - 4 * a * c| < DBL_EPSILON →
      solve_square a b c = RootResult.OneRoot (-b / (2 * a))) ∧
    (¬(b * b - 4 * a * c < 0 ∧ |b * b - 4 * a * c| > DBL_EPSILON) →
      ¬(|b * b - 4 * a * c| < DBL_EPSILON) →
      solve_square a b c =
        RootResult.TwoRoots ((-b - Real.sqrt (b * b - 4 * a * c)) / (2 * a))
          ((-b + Real.sqrt (b * b - 4 * a * c)) / (2 * a))) := by
  have h1 : ¬(|a| < DBL_EPSILON) := not_lt.mpr ha
  refine ⟨fun h2 => solve_square_noRoots_branch h1 h2, fun h3 => ?_, ?_⟩
  · have h2 : ¬(b * b - 4 * a * c < 0 ∧ |b * b - 4 * a * c| > DBL_EPSILON) :=
      fun hc => absurd h3 (not_lt.mpr (le_of_lt hc.2))
    exact solve_square_oneRoot_branch h1 h2 h3
  · exact fun h2 h3 => solve_square_twoRoots_branch h1 h2 h3

/-- Witness for C1 at the concrete input (1, 0, 1): the discriminant is
-4, which is negative with magnitude above DBL_EPSILON, so the outcome is
`NoRoots`. -/
theorem solve_square_quadratic_classification_witness :
    solve_square 1 0 1 = RootResult.NoRoots :=
  (solve_square_quadratic_classification 1 0 1
    (by norm_num [DBL_EPSILON])).1 (by norm_num [DBL_EPSILON])

/-- C2: for every triple with |a| < DBL_EPSILON, `solve_square` returns
exactly `solve_linear b c`, which is `InfiniteRoots` when both |b| and |c|
are below DBL_EPSILON, `NoRoots` when |b| is below DBL_EPSILON but |c| is
not, and `OneRoot (-c/b)` when DBL_EPSILON ≤ |b|. -/
theorem solve_square_linear_fallback (a b c : ℝ) (ha : |a| < DBL_EPSILON) :
    solve_square a b c = solve_linear b c ∧
    (|b| < DBL_EPSILON → |c| < DBL_EPSILON →
      solve_linear b c = RootResult.InfiniteRoots) ∧
    (|b| < DBL_EPSILON → DBL_EPSILON ≤ |c| →
      solve_linear b c = RootResult.NoRoots) ∧
    (DBL_EPSILON ≤ |b| → solve_linear b c = RootResult.OneRoot (-c / b)) := by
  refine ⟨solve_square_linear_branch b c ha, fun hb hc => ?_, fun hb hc => ?_,
    fun hb => ?_⟩
  · unfold solve_linear
    rw [if_pos hb, if_pos hc]
  · unfold solve_linear
    rw [if_pos hb, if_neg (not_lt.mpr hc)]
  · unfold solve_linear
    rw [if_neg (not_lt.mpr hb)]

/-- Witness for C2 at the concrete input (0, 2, -4): the linear fallback
fires and yields `OneRoot 2`. -/
theorem solve_square_linear_fallback_witness :
    solve_square 0 2 (-4) = solve_linear 2 (-4) ∧
    solve_linear 2 (-4) = RootResult.OneRoot (-(-4) / 2) :=
  ⟨(solve_square_linear_fallback 0 2 (-4) (by norm_num [DBL_EPSILON])).1,
   (solve_square_linear_fallback 0 2 (-4)
     (by norm_num [DBL_EPSILON])).2.2.2 (by norm_num [DBL_EPSILON])⟩

/-- C4: the six enumerated example invocations of the specification all
hold: solve(1,0,-1) gives TwoRoots(-1,1), solve(1,-2,1) gives OneRoot(1),
solve(1,0,1) gives NoRoots, solve(0,2,-4) gives OneRoot(2), solve(0,0,5)
gives NoRoots and solve(0,0,0) gives InfiniteRoots. -/
theorem solve_square_examples :
    solve_square 1 0 (-1) = RootResult.TwoRoots (-1) 1 ∧
    solve_square 1 (-2) 1 = RootResult.OneRoot 1 ∧
    solve_square 1 0 1 = RootResult.NoRoots ∧
    solve_square 0 2 (-4) = RootResult.OneRoot 2 ∧
    solve_square 0 0 5 = RootResult.NoRoots ∧
    solve_square 0 0 0 = RootResult.InfiniteRoots :=
  ⟨solve_ex_two, solve_ex_one, solve_ex_none, solve_ex_lin, solve_ex_const,
   solve_ex_zero⟩

/-- C3 counterexample: on the triple (-1, 0, 1), that is, the equation
-x^2 + 1 = 0, `solve_square` returns `TwoRoots 1 (-1)`, whose first root is
strictly greater than the second, refuting r1 ≤ r2 for negative leading
coefficient. -/
theorem solve_square_root_order_cex :
    solve_square (-1) 0 1 = RootResult.TwoRoots 1 (-1) ∧ (-1 : ℝ) < 1 := by
  constructor
  · rw [solve_square_twoRoots_branch (by norm_num [DBL_EPSILON])
      (by norm_num) (by norm_num [DBL_EPSILON])]
    norm_num [sqrt_four]
  · norm_num

/-- C3 amended: whenever `solve_square` returns `TwoRoots r1 r2`, the
ordering of the two roots follows the sign of the leading coefficient:
r1 ≤ r2 when a is positive, and r2 ≤ r1 when a is negative. -/
theorem solve_square_root_order (a b c r1 r2 : ℝ)
    (h : solve_square a b c = RootResult.TwoRoots r1 r2) :
    (0 < a → r1 ≤ r2) ∧ (a < 0 → r2 ≤ r1) := by
  obtain ⟨ha, -, -, hr1, hr2⟩ := twoRoots_inv h
  have hs : 0 ≤ Real.sqrt (b * b - 4 * a * c) := Real.sqrt_nonneg _
  constructor
  · intro hpos
    rw [hr1, hr2, div_le_div_iff_of_pos_right (by linarith : (0:ℝ) < 2 * a)]
    linarith
  · intro hneg
    rw [hr1, hr2, div_le_div_right_of_neg (by linarith : 2 * a < (0:ℝ))]
    linarith

/-- Witness for the amended C3 at the concrete input (1, 0, -1) with roots
(-1, 1). -/
theorem solve_square_root_order_witness :
    ((0:ℝ) < 1 → (-1:ℝ) ≤ 1) ∧ ((1:ℝ) < 0 → (1:ℝ) ≤ -1) :=
  solve_square_root_order 1 0 (-1) (-1) 1 solve_ex_two

/-- C5 counterexample: on the triple (1, 0, DBL_EPSILON/4) the discriminant
is exactly -DBL_EPSILON; neither epsilon guard fires, the `TwoRoots` branch
is taken, and `sqrt` receives the negative argument -DBL_EPSILON, refuting
that every sqrt argument is strictly positive. -/
theorem solve_square_sqrt_arg_cex :
    solve_square_sqrt_arg 1 0 (DBL_EPSILON / 4) = some (-DBL_EPSILON) ∧
    -DBL_EPSILON < 0 := by
  constructor
  · unfold solve_square_sqrt_arg
    rw [if_neg (by norm_num [DBL_EPSILON]),
      if_neg (by norm_num [DBL_EPSILON, abs_of_nonneg]),
      if_neg (by norm_num [DBL_EPSILON, abs_of_nonneg])]
    norm_num [DBL_EPSILON]
  · simpa using eps_pos

/-- C5 amended: every division `solve_square` performs has a divisor of
magnitude at least DBL_EPSILON, and every argument passed to `sqrt` is
either at least DBL_EPSILON (hence strictly positive) or exactly
-DBL_EPSILON, the single negative boundary value. -/
theorem solve_square_div_sqrt_guards (a b c : ℝ) :
    (∀ x ∈ solve_square_divisors a b c, DBL_EPSILON ≤ |x|) ∧
    (∀ d0, solve_square_sqrt_arg a b c = some d0 →
      DBL_EPSILON ≤ d0 ∨ d0 = -DBL_EPSILON) := by
  constructor
  · intro x hx
    unfold solve_square_divisors at hx
    split_ifs at hx with h1 h2 h3
    · simp at hx
    · simp only [List.mem_singleton] at hx
      rw [hx]
      exact not_lt.mp h2
    · simp at hx
    · simp only [List.mem_singleton] at hx
      rw [hx, abs_mul]
      have h4 := not_lt.mp h1
      have h5 : (0:ℝ) ≤ |a| := abs_nonneg a
      have h6 : |(2:ℝ)| = 2 := by norm_num
      rw [h6]
      linarith
  · intro d0 hd
    unfold solve_square_sqrt_arg at hd
    split_ifs at hd with h1 h2 h3
    simp only [Option.some.injEq] at hd
    rcases le_or_lt 0 (b * b - 4 * a * c) with hd0 | hdneg
    · left
      have hge := not_lt.mp h3
      rw [abs_of_nonneg hd0] at hge
      rw [← hd]
      exact hge
    · right
      have hle : |b * b - 4 * a * c| ≤ DBL_EPSILON := by
        by_contra hgt
        exact h2 ⟨hdneg, lt_of_not_le hgt⟩
      have hge := not_lt.mp h3
      have habs : |b * b - 4 * a * c| = -(b * b - 4 * a * c) := abs_of_neg hdneg
      rw [← hd]
      linarith

/-- Witness for the amended C5 at the concrete input (1, 0, -1): the single
division is by 2*1 and the sqrt argument is 4. -/
theorem solve_square_div_sqrt_guards_witness :
    DBL_EPSILON ≤ |(2:ℝ) * 1| ∧
    (DBL_EPSILON ≤ (4:ℝ) ∨ (4:ℝ) = -DBL_EPSILON) := by
  constructor
  · refine (solve_square_div_sqrt_guards 1 0 (-1)).1 (2 * 1) ?_
    unfold solve_square_divisors
    rw [if_neg (by norm_num [DBL_EPSILON]), if_neg (by norm_num)]
    exact List.mem_singleton.mpr rfl
  · refine (solve_square_div_sqrt_guards 1 0 (-1)).2 4 ?_
    unfold solve_square_sqrt_arg
    rw [if_neg (by norm_num [DBL_EPSILON]), if_neg (by norm_num),
      if_neg (by norm_num [DBL_EPSILON])]
    norm_num

/-- C6 counterexample: scaling the triple (DBL_EPSILON/2, 1, 0) by k = 2
changes the classification from `OneRoot 0` (linear fallback) to
`TwoRoots (-2^53) 0`, because the fixed epsilon threshold on |a| is crossed
by the scaling; so `solve_square` is not scale invariant. -/
theorem solve_square_scale_cex :
    solve_square (DBL_EPSILON / 2) 1 0 = RootResult.OneRoot 0 ∧
    solve_square (2 * (DBL_EPSILON / 2)) (2 * 1) (2 * 0) =
      RootResult.TwoRoots (-2 ^ 53) 0 ∧
    (2:ℝ) ≠ 0 ∧
    RootResult.OneRoot 0 ≠ RootResult.TwoRoots (-2 ^ 53) 0 := by
  refine ⟨?_, ?_, by norm_num, by simp⟩
  · rw [solve_square_linear_branch 1 0
      (by norm_num [DBL_EPSILON, abs_of_nonneg])]
    unfold solve_linear
    rw [if_neg (by norm_num [DBL_EPSILON])]
    norm_num
  · rw [solve_square_twoRoots_branch (by norm_num [DBL_EPSILON, abs_of_nonneg])
      (by norm_num [DBL_EPSILON, abs_of_nonneg])
      (by norm_num [DBL_EPSILON, abs_of_nonneg])]
    rw [show (2:ℝ) * 1 * (2 * 1) - 4 * (2 * (DBL_EPSILON / 2)) * (2 * 0) = 4 by
      norm_num]
    rw [sqrt_four]
    norm_num [DBL_EPSILON]

/-- C6 amended: the root values are scale invariant but the classification
is not.  For every nonzero k: if both the original and the scaled triple
are classified `TwoRoots`, the two root sets coincide (in the original
order for k positive, swapped for k negative); if both are classified
`OneRoot` and the epsilon test on the leading coefficient agrees on the two
triples, the roots are equal.  The classification itself can change under
scaling, as the counterexample shows. -/
theorem solve_square_scale_invariant_roots (a b c k : ℝ) (hk : k ≠ 0) :
    (∀ r1 r2 s1 s2, solve_square a b c = RootResult.TwoRoots r1 r2 →
      solve_square (k * a) (k * b) (k * c) = RootResult.TwoRoots s1 s2 →
      (s1 = r1 ∧ s2 = r2) ∨ (s1 = r2 ∧ s2 = r1)) ∧
    (∀ r s, solve_square a b c = RootResult.OneRoot r →
      solve_square (k * a) (k * b) (k * c) = RootResult.OneRoot s →
      (|a| < DBL_EPSILON ↔ |k * a| < DBL_EPSILON) → s = r) := by
  constructor
  · intro r1 r2 s1 s2 h h'
    obtain ⟨ha, -, -, hr1, hr2⟩ := twoRoots_inv h
    obtain ⟨-, -, -, hs1, hs2⟩ := twoRoots_inv h'
    have hane : a ≠ 0 := ne_zero_of_eps_le_abs ha
    have hd' : k * b * (k * b) - 4 * (k * a) * (k * c) =
        k ^ 2 * (b * b - 4 * a * c) := by ring
    rw [hd'] at hs1 hs2
    rcases le_or_lt 0 (b * b - 4 * a * c) with hd0 | hdneg
    · have hsq : Real.sqrt (k ^ 2 * (b * b - 4 * a * c)) =
          |k| * Real.sqrt (b * b - 4 * a * c) := by
        rw [Real.sqrt_mul (sq_nonneg k), Real.sqrt_sq_eq_abs]
      rcases hk.lt_or_lt with hkneg | hkpos
      · right
        rw [hs1, hs2, hr1, hr2, hsq, abs_of_neg hkneg]
        constructor <;> · field_simp; ring
      · left
        rw [hs1, hs2, hr1, hr2, hsq, abs_of_pos hkpos]
        constructor <;> · field_simp; ring
    · have hz : Real.sqrt (b * b - 4 * a * c) = 0 :=
        Real.sqrt_eq_zero_of_nonpos hdneg.le
      have hz' : Real.sqrt (k ^ 2 * (b * b - 4 * a * c)) = 0 :=
        Real.sqrt_eq_zero_of_nonpos (by nlinarith [sq_nonneg k])
      left
      rw [hs1, hs2, hr1, hr2, hz, hz']
      constructor <;> · field_simp; ring
  · intro r s h h' hiff
    rcases oneRoot_inv h with ⟨ha, hb, hr⟩ | ⟨ha, -, hr⟩
    · rcases oneRoot_inv h' with ⟨-, -, hs⟩ | ⟨ha', -, -⟩
      · have hbne : b ≠ 0 := ne_zero_of_eps_le_abs hb
        rw [hs, hr]
        field_simp
        ring
      · exact absurd (hiff.mp ha) (not_lt.mpr ha')
    · rcases oneRoot_inv h' with ⟨ha', -, -⟩ | ⟨-, -, hs⟩
      · exact absurd (hiff.mpr ha') (not_lt.mpr ha)
      · have hane : a ≠ 0 := ne_zero_of_eps_le_abs ha
        rw [hs, hr]
        field_simp
        ring

/-- Witness for the amended C6 at (1, 0, -1) with k = 1: both invocations
give `TwoRoots (-1) 1` and the root sets coincide. -/
theorem solve_square_scale_invariant_roots_witness :
    ((-1:ℝ) = -1 ∧ (1:ℝ) = 1) ∨ ((-1:ℝ) = 1 ∧ (1:ℝ) = -1) :=
  (solve_square_scale_invariant_roots 1 0 (-1) 1 one_ne_zero).1 (-1) 1 (-1) 1
    solve_ex_two (by norm_num [solve_ex_two])

/-- C7 counterexample: on the triple (DBL_EPSILON/2, DBL_EPSILON, 1) the
linear fallback returns `OneRoot (-2^52)`, and substituting that root into
the original quadratic a*r^2 + b*r + c gives 2^51, which is enormous, not
approximately zero. -/
theorem solve_square_residual_cex :
    solve_square (DBL_EPSILON / 2) DBL_EPSILON 1 =
      RootResult.OneRoot (-2 ^ 52) ∧
    DBL_EPSILON / 2 * (-2 ^ 52 : ℝ) ^ 2 + DBL_EPSILON * (-2 ^ 52) + 1 =
      2 ^ 51 ∧
    (1:ℝ) ≤ 2 ^ 51 := by
  refine ⟨?_, by norm_num [DBL_EPSILON], by norm_num⟩
  rw [solve_square_linear_branch DBL_EPSILON 1
    (by norm_num [DBL_EPSILON, abs_of_nonneg])]
  unfold solve_linear
  rw [if_neg (by norm_num [DBL_EPSILON, abs_of_nonneg])]
  norm_num [DBL_EPSILON]

/-- C7 amended: when `solve_square` returns `TwoRoots r1 r2` and the
discriminant is nonnegative, both residuals a*r^2 + b*r + c vanish exactly;
when it returns `OneRoot r` from the quadratic branch (DBL_EPSILON ≤ |a|),
the residual equals -d/(4*a) where the discriminant d has |d| < DBL_EPSILON;
when it returns `OneRoot r` from the linear fallback (|a| < DBL_EPSILON),
only the linear residual b*r + c vanishes — the quadratic residual can be
arbitrarily large, as the counterexample shows. -/
theorem solve_square_residuals (a b c : ℝ) :
    (∀ r1 r2, solve_square a b c = RootResult.TwoRoots r1 r2 →
      0 ≤ b * b - 4 * a * c →
      a * r1 ^ 2 + b * r1 + c = 0 ∧ a * r2 ^ 2 + b * r2 + c = 0) ∧
    (∀ r, DBL_EPSILON ≤ |a| → solve_square a b c = RootResult.OneRoot r →
      a * r ^ 2 + b * r + c = -(b * b - 4 * a * c) / (4 * a) ∧
      |b * b - 4 * a * c| < DBL_EPSILON) ∧
    (∀ r, |a| < DBL_EPSILON → solve_square a b c = RootResult.OneRoot r →
      b * r + c = 0) := by
  refine ⟨?_, ?_, ?_⟩
  · intro r1 r2 h hd0
    obtain ⟨ha, -, -, hr1, hr2⟩ := twoRoots_inv h
    have hane : a ≠ 0 := ne_zero_of_eps_le_abs ha
    have key : ∀ t : ℝ, t ^ 2 = b * b - 4 * a * c →
        a * ((-b - t) / (2 * a)) ^ 2 + b * ((-b - t) / (2 * a)) + c = 0 := by
      intro t ht
      have e : a * ((-b - t) / (2 * a)) ^ 2 + b * ((-b - t) / (2 * a)) + c =
          (t ^ 2 - (b * b - 4 * a * c)) / (4 * a) := by
        field_simp
        ring
      rw [e, ht, sub_self, zero_div]
    constructor
    · rw [hr1]
      exact key _ (Real.sq_sqrt hd0)
    · rw [hr2, show -b + Real.sqrt (b * b - 4 * a * c) =
        -b - -Real.sqrt (b * b - 4 * a * c) by ring]
      refine key _ ?_
      rw [neg_sq]
      exact Real.sq_sqrt hd0
  · intro r ha h
    rcases oneRoot_inv h with ⟨ha', -, -⟩ | ⟨-, hd, hr⟩
    · exact absurd ha' (not_lt.mpr ha)
    · have hane : a ≠ 0 := ne_zero_of_eps_le_abs ha
      refine ⟨?_, hd⟩
      rw [hr]
      field_simp
      ring
  · intro r ha h
    rcases oneRoot_inv h with ⟨-, hb, hr⟩ | ⟨ha', -, -⟩
    · have hbne : b ≠ 0 := ne_zero_of_eps_le_abs hb
      rw [hr]
      field_simp
      ring
    · exact absurd ha (not_lt.mpr ha')

/-- Witness for the amended C7 at (1, -2, 1): the root 1 from the quadratic
`OneRoot` branch has residual -d/(4*a) = 0 and |d| = 0 < DBL_EPSILON. -/
theorem solve_square_residuals_witness :
    (1:ℝ) * 1 ^ 2 + (-2) * 1 + 1 = -((-2) * (-2) - 4 * 1 * 1) / (4 * 1) ∧
    |(-2:ℝ) * (-2) - 4 * 1 * 1| < DBL_EPSILON :=
  (solve_square_residuals 1 (-2) 1).2.1 1 (by norm_num [DBL_EPSILON])
    solve_ex_one

/-- C8: `solve_square` is a pure function of its three arguments: two
invocations with equal coefficients return equal status codes and equal
root values, whatever the prior contents of the two output locations; the
pure view is likewise determined by the three coefficients alone. -/
theorem solve_square_pure (a b c a' b' c' : ℝ) (s s' : SState)
    (ha : a = a') (hb : b = b') (hc : c = c') :
    (solve_square_c a b c s).1 = (solve_square_c a' b' c' s').1 ∧
    solve_square a b c = solve_square a' b' c' ∧
    ((solve_square_c a b c s).1 = 1 →
      (solve_square_c a b c s).2.x1 = (solve_square_c a' b' c' s').2.x1) ∧
    ((solve_square_c a b c s).1 = 2 →
      (solve_square_c a b c s).2.x1 = (solve_square_c a' b' c' s').2.x1 ∧
      (solve_square_c a b c s).2.x2 = (solve_square_c a' b' c' s').2.x2) := by
  subst ha hb hc
  refine ⟨?_, rfl, ?_, ?_⟩ <;>
  · unfold solve_square_c solve_linear_c
    split_ifs <;> simp_all [INFINITE_ROOTS]

/-- Witness for C8 at (1, 0, 1) with two different prior states of the
output locations: the status codes agree. -/
theorem solve_square_pure_witness :
    (solve_square_c 1 0 1 ⟨5, 6⟩).1 = (solve_square_c 1 0 1 ⟨7, 8⟩).1 :=
  (solve_square_pure 1 0 1 1 0 1 ⟨5, 6⟩ ⟨7, 8⟩ rfl rfl rfl).1

/-- C9: frame property of the out-parameters of `solve_square`: when the
status code is INFINITE_ROOTS or 0, neither location is written and both
keep their prior values; when it is 1, x2 keeps its prior value; and x2 is
changed only when the status code is 2. -/
theorem solve_square_frame (a b c : ℝ) (s : SState) :
    ((solve_square_c a b c s).1 = INFINITE_ROOTS ∨
        (solve_square_c a b c s).1 = 0 →
      (solve_square_c a b c s).2.x1 = s.x1 ∧
      (solve_square_c a b c s).2.x2 = s.x2) ∧
    ((solve_square_c a b c s).1 = 1 →
      (solve_square_c a b c s).2.x2 = s.x2) ∧
    ((solve_square_c a b c s).1 = 2 ∨
      (solve_square_c a b c s).2.x2 = s.x2) := by
  unfold solve_square_c solve_linear_c
  split_ifs <;> simp [INFINITE_ROOTS]

/-- Evaluation of the C-faithful embedding on the identically zero
equation: the status code is INFINITE_ROOTS and the state is unchanged. -/
lemma solve_square_c_zero_eval (s : SState) :
    (solve_square_c 0 0 0 s).1 = INFINITE_ROOTS := by
  unfold solve_square_c solve_linear_c
  rw [if_pos (by norm_num [DBL_EPSILON]), if_pos (by norm_num [DBL_EPSILON]),
    if_pos (by norm_num [DBL_EPSILON])]

/-- Witness for C9 at (0, 0, 0) with prior pointee values 3 and 4: the
status code is INFINITE_ROOTS and both locations keep their prior values. -/
theorem solve_square_frame_witness :
    (solve_square_c 0 0 0 ⟨3, 4⟩).2.x1 = 3 ∧
    (solve_square_c 0 0 0 ⟨3, 4⟩).2.x2 = 4 :=
  (solve_square_frame 0 0 0 ⟨3, 4⟩).1
    (Or.inl (solve_square_c_zero_eval ⟨3, 4⟩))

/-- C10: the status code returned by `solve_square` is always one of
INFINITE_ROOTS = -1, 0, 1 or 2, so the fallback message of `main`
(src/main.c line 72) is unreachable. -/
theorem solve_square_status_codes (a b c : ℝ) (s : SState) :
    ((solve_square_c a b c s).1 = INFINITE_ROOTS ∨
     (solve_square_c a b c s).1 = 0 ∨
     (solve_square_c a b c s).1 = 1 ∨
     (solve_square_c a b c s).1 = 2) ∧
    main_dispatch (solve_square_c a b c s).1 ≠ MainMessage.strangeMsg := by
  unfold solve_square_c solve_linear_c
  split_ifs <;> simp [INFINITE_ROOTS, main_dispatch]

/-- Witness for C10 at (1, 0, 1): the status code is among the four legal
values. -/
theorem solve_square_status_codes_witness :
    (solve_square_c 1 0 1 ⟨0, 0⟩).1 = INFINITE_ROOTS ∨
    (solve_square_c 1 0 1 ⟨0, 0⟩).1 = 0 ∨
    (solve_square_c 1 0 1 ⟨0, 0⟩).1 = 1 ∨
    (solve_square_c 1 0 1 ⟨0, 0⟩).1 = 2 :=
  (solve_square_status_codes 1 0 1 ⟨0, 0⟩).1

end SolveSquare
